import Mathlib

/-
Shallow embedding of the schema compiler in `crates/ocppx-types/build.rs`.

The Rust build script loads JSON Schema files, parses them into a `Schema`
AST, recursively compiles them into Rust struct/enum source text accumulated
in a `HashMap<String, String>` keyed by definition name, and finally writes
the joined definitions to one output file.

Modelling decisions, each noted at its definition:
* `HashMap<String, String>` is modelled as an association list with unique
  keys (`HM`); `HM.insert` replaces the binding of an existing key, exactly
  like `HashMap::insert`.  The *iteration order* of a `std` `HashMap` is
  unspecified (randomly seeded per process), so wherever the source iterates
  a map (`compiled_schemas.values()`, `properties.iter()`) the model takes
  the iteration order as an explicit input: a `values_order` function for
  emission, and the order of the `properties` list for field compilation.
* The mutual recursion `compile_object` / `compile_property` of the source is
  staged by an explicit fuel parameter so that every definition is a plain
  structural recursion (hence executable in the kernel).  `none` is the
  out-of-fuel artifact of the model; `some r` is the behaviour of the source,
  with `r : Except Error _` mirroring the Rust `Result`.
* Rust strings are Lean `String`s; `case::CaseExt::to_camel` / `to_snake` and
  the `[^A-Za-z0-9]` regex replacement are embedded character by character.
* File-system effects are modelled by their observable outcomes: a schema
  file is either unreadable, invalid JSON, or a parsed `Schema`; a directory
  listing is either an error or a list of entries whose `file_type()` call
  can itself fail.
-/

namespace Ocppx

/-- The seven-way `type` tag of a schema node (`SchemaPropertyType` in the
source, deserialized with `rename_all = "lowercase"`). -/
inductive SchemaPropertyType where
  | Null
  | Boolean
  | Object
  | Array
  | Number
  | String
  | Integer
deriving DecidableEq

/-- The error enum of the build script.  The `io::Error` / `serde_json::Error`
payloads are external values carrying no information used by the compiler's
control flow, so they are dropped; the path / name / type / format context is
kept. -/
inductive Error where
  | SchemasNotFound
  | CompiledSchemaCannotBeSaved
  | SchemaNotFound (schema_path : String)
  | InvalidSchema (schema_path : String)
  | SchemaTypeNotSupported (ty : SchemaPropertyType) (schema_path : String)
  | SchemaPropertyTypeNotSupported (name : String) (ty : SchemaPropertyType)
      (schema_path : String)
  | SchemaPropertyFormatNotSupported (name : String) (format : String)
      (schema_path : String)
  | Other
deriving DecidableEq

/-- `SchemaProperty`: the recursive schema node.  Field order follows the Rust
struct: `ty`, `enum`, `minLength`, `maxLength`, `pattern`, `items`,
`maxItems`, `minItems`, `uniqueItems`, `maxContains`, `minContains`,
`properties`, `additionalProperties`, `maxProperties`, `minProperties`,
`required`, `format`.  The `u32` bounds are modelled as `Nat`, the `i32`
bounds as `Int`; properties maps are association lists whose order models the
(unspecified) `HashMap` iteration order. -/
inductive SchemaProperty where
  | mk
      (ty : SchemaPropertyType)
      (enum : Option (List String))
      (minLength : Option Nat)
      (maxLength : Option Nat)
      (pattern : Option String)
      (items : Option SchemaProperty)
      (maxItems : Option Nat)
      (minItems : Option Nat)
      (uniqueItems : Option Bool)
      (maxContains : Option Nat)
      (minContains : Option Nat)
      (properties : Option (List (String × SchemaProperty)))
      (additionalProperties : Option Bool)
      (maxProperties : Option Int)
      (minProperties : Option Int)
      (required : Option (List String))
      (format : Option String)

def SchemaProperty.ty : SchemaProperty → SchemaPropertyType
  | .mk t _ _ _ _ _ _ _ _ _ _ _ _ _ _ _ _ => t

def SchemaProperty.minLength : SchemaProperty → Option Nat
  | .mk _ _ m _ _ _ _ _ _ _ _ _ _ _ _ _ _ => m

def SchemaProperty.maxLength : SchemaProperty → Option Nat
  | .mk _ _ _ m _ _ _ _ _ _ _ _ _ _ _ _ _ => m

/-- A top-level schema document (the Rust `Schema` struct): `id`, `title`,
`type`, `properties`, `required`. -/
structure Schema where
  id : String
  title : String
  ty : SchemaPropertyType
  properties : List (String × SchemaProperty)
  required : Option (List String)

/-- `case::CaseExt::to_camel` on a character list: underscores are dropped and
start a new word; the first character of each word is uppercased (ASCII, which
agrees with Rust `char::to_uppercase` on the ASCII identifiers at hand). -/
def toCamelChars : Bool → List Char → List Char
  | _, [] => []
  | _, '_' :: rest => toCamelChars true rest
  | true, c :: rest => c.toUpper :: toCamelChars false rest
  | false, c :: rest => c :: toCamelChars false rest

/-- `raw.to_camel()` from the `case` crate. -/
def toCamel (s : String) : String :=
  String.mk (toCamelChars true s.data)

/-- `case::CaseExt::to_snake` on a character list (the `Bool` is `true` at the
first character): an uppercase character is lowercased, prefixed with `_`
except at the start. -/
def toSnakeChars : Bool → List Char → List Char
  | _, [] => []
  | first, c :: rest =>
    if c.isUpper then
      (if first then [c.toLower] else ['_', c.toLower]) ++ toSnakeChars false rest
    else c :: toSnakeChars false rest

/-- `raw.to_snake()` from the `case` crate. -/
def toSnake (s : String) : String :=
  String.mk (toSnakeChars true s.data)

/-- `NOT_ID.replace_all(&v, "")` for `NOT_ID = [^A-Za-z0-9]`: strip every
non-alphanumeric character. -/
def stripNonId (s : String) : String :=
  String.mk (s.data.filter Char.isAlphanum)

/-- The whole member sanitization of `compile_enum`: case-convert with
`to_camel`, then strip non-alphanumerics. -/
def sanitized (literal : String) : String :=
  stripNonId (toCamel literal)

/-- Model of `HashMap<String, String>` (the `compiled_schemas` accumulator):
an association list with unique keys.  The list order is internal
representation only; `HashMap` iteration order is modelled separately as an
input wherever the source iterates the map. -/
abbrev HM := List (String × String)

/-- `HashMap::insert`: replace the binding of an existing key in place,
otherwise add the binding. -/
def HM.insert (m : HM) (k v : String) : HM :=
  if m.any (fun kv => kv.1 = k) then
    m.map (fun kv => if kv.1 = k then (k, v) else kv)
  else
    m ++ [(k, v)]

/-- `HashMap::get` by key. -/
def HM.lookup (m : HM) (k : String) : Option String :=
  match m with
  | [] => none
  | (k', v) :: rest => if k' = k then some v else HM.lookup rest k

/-- `HashMap::values`, in the order of the representing list; the emission
step applies a caller-chosen reordering on top of this to model the
unspecified iteration order. -/
def HM.values (m : HM) : List String :=
  m.map Prod.snd

/-- The `#[validate(length(...))]` attribute of `compile_property`, one of
three shapes depending on which of `min_length` / `max_length` are present
(`None` when neither is).  The only-min string reproduces the source exactly,
including its unbalanced closing parenthesis. -/
def length_attribute (min_length max_length : Option Nat) : Option String :=
  match min_length, max_length with
  | none, some max => some ("#[validate(length(min = 1, max = " ++ toString max ++ "))]")
  | some min, some max =>
    some ("#[validate(length(min = " ++ toString min ++ ", max = " ++ toString max ++ "))]")
  | some min, none => some ("#[validate(length(min = " ++ toString min ++ ")]")
  | none, none => none

/-- The first component of the `compile_property` result: the attributes
collected into a `Vec`, joined with newlines, with a trailing space appended
when non-empty (the source's `v.push(' ')`). -/
def field_attributes (min_length max_length : Option Nat) : String :=
  match length_attribute min_length max_length with
  | none => ""
  | some v => v ++ " "

/-- One enum member as rendered by `compile_enum`'s closure: sanitize the
literal; if the sanitized form differs from the literal, prefix a
`#[serde(rename = "...")]` wire mapping; append the trailing comma. -/
def enum_variant (variant : String) : String :=
  let v := sanitized variant
  let v := if v ≠ variant then "#[serde(rename = \"" ++ variant ++ "\")] " ++ v else v
  v ++ ","

/-- `compile_enum`: register the enum definition text under `enum_name`.
The source returns `Result<()>` and has no error path. -/
def compile_enum (enum_name : String) (variants : List String)
    (compiled_schemas : HM) : Except Error HM :=
  Except.ok (HM.insert compiled_schemas enum_name
    ("#[derive(Debug, Copy, Clone, Serialize, Deserialize)]\npub enum " ++ enum_name
      ++ " \x7b\n    " ++ String.intercalate "\n    " (variants.map enum_variant)
      ++ "\n\x7d"))

/-- The struct definition text built at the end of `compile_object`: fields
are joined with a bare newline (only the first line is indented, exactly as
the source format string does). -/
def struct_text (struct_name : String) (fields : List String) : String :=
  "#[derive(Debug, Clone, Serialize, Deserialize, validator::Validate)]\npub struct "
    ++ struct_name ++ " \x7b\n    " ++ String.intercalate "\n" fields ++ "\n\x7d"

/-- The field loop of `compile_object`, abstracted over the property compiler
`cp` (instantiated below with `compile_property` at a given fuel, staging the
source's mutual recursion into structural recursion on fuel).  For each
`(raw_name, property)` pair, compile the property, then render the field:
bare type when `raw_name` is in `required`, `Option<...>` otherwise. -/
def compile_fields_with
    (cp : String → String → SchemaProperty → String → HM →
      Option (Except Error (String × String × String × HM)))
    (struct_name : String) :
    List (String × SchemaProperty) → List String → String → HM →
      Option (Except Error (List String × HM))
  | [], _, _, compiled_schemas => some (.ok ([], compiled_schemas))
  | (raw_name, property) :: rest, required, schema_path, compiled_schemas =>
    match cp struct_name raw_name property schema_path compiled_schemas with
    | none => none
    | some (.error e) => some (.error e)
    | some (.ok (attrs, name, ty, cs₁)) =>
      let field :=
        if required.contains raw_name then
          attrs ++ "pub r#" ++ name ++ ": " ++ ty ++ ","
        else
          attrs ++ "pub r#" ++ name ++ ": Option<" ++ ty ++ ">,"
      match compile_fields_with cp struct_name rest required schema_path cs₁ with
      | none => none
      | some (.error e) => some (.error e)
      | some (.ok (fields, cs₂)) => some (.ok (field :: fields, cs₂))

/-- `compile_object`, abstracted over the property compiler: derive the struct
name with `to_camel`, compile every field, and register the struct text under
the derived name with `HashMap::insert`. -/
def compile_object_with
    (cp : String → String → SchemaProperty → String → HM →
      Option (Except Error (String × String × String × HM)))
    (raw_name : String) (properties : List (String × SchemaProperty))
    (required : List String) (schema_path : String) (compiled_schemas : HM) :
    Option (Except Error HM) :=
  let struct_name := toCamel raw_name
  match compile_fields_with cp struct_name properties required schema_path compiled_schemas with
  | none => none
  | some (.error e) => some (.error e)
  | some (.ok (fields, cs)) =>
    some (.ok (HM.insert cs struct_name (struct_text struct_name fields)))

/-- The third component of the tuple built by `compile_property` (the type
reference), factored out and abstracted over the object compiler `co`.  It is
the seven-way dispatch on the property's `type` tag.  Note that every nested
definition name is `raw_name.to_camel()` — derived from the property name
alone; the owning struct's name does not reach any naming decision. -/
def compile_property_ty_with
    (co : String → List (String × SchemaProperty) → List String → String → HM →
      Option (Except Error HM))
    (raw_name : String) (property : SchemaProperty) (schema_path : String)
    (compiled_schemas : HM) : Option (Except Error (String × HM)) :=
  match property with
  | .mk ty enum _minL _maxL _pat items _maxI _minI _uniq _maxC _minC
      props _addP _maxP _minP req _format =>
    match ty with
    | .Boolean => some (.ok ("bool", compiled_schemas))
    | .String =>
      match _format with
      | some f =>
        if f = "date-time" then
          some (.ok ("chrono::DateTime<chrono::offset::Utc>", compiled_schemas))
        else if f = "uri" then
          some (.ok ("url::Url", compiled_schemas))
        else
          some (.error (.SchemaPropertyFormatNotSupported raw_name f schema_path))
      | none =>
        match enum with
        | some variants =>
          let enum_name := toCamel raw_name
          match compile_enum enum_name variants compiled_schemas with
          | .error e => some (.error e)
          | .ok cs => some (.ok (enum_name, cs))
        | none => some (.ok ("String", compiled_schemas))
    | .Number => some (.ok ("i32", compiled_schemas))
    | .Integer => some (.ok ("i32", compiled_schemas))
    | .Array =>
      match items with
      | some (.mk .Object _ _ _ _ _ _ _ _ _ _ (some iprops) _ _ _ ireq _) =>
        let struct_name := toCamel raw_name
        match co struct_name iprops (ireq.getD []) schema_path compiled_schemas with
        | none => none
        | some (.error e) => some (.error e)
        | some (.ok cs) => some (.ok ("Vec<" ++ struct_name ++ ">", cs))
      | some (.mk .String _ _ _ _ _ _ _ _ _ _ _ _ _ _ _ _) =>
        some (.ok ("Vec<String>", compiled_schemas))
      | _ => some (.error (.SchemaPropertyTypeNotSupported raw_name .Array schema_path))
    | .Object =>
      match props with
      | some ps =>
        let struct_name := toCamel raw_name
        match co struct_name ps (req.getD []) schema_path compiled_schemas with
        | none => none
        | some (.error e) => some (.error e)
        | some (.ok cs) => some (.ok (struct_name, cs))
      | none => some (.error (.SchemaPropertyTypeNotSupported raw_name .Object schema_path))
    | .Null => some (.error (.SchemaPropertyTypeNotSupported raw_name .Null schema_path))

/-- `compile_property`: returns the `(annotations, field name, type)` triple
of the source together with the updated definition map.  The `struct_name`
parameter is the owner struct's name, exactly as in the source — where it is
never read.  Structural recursion on `fuel` stages the recursion into nested
objects; `none` means the fuel ran out (model artifact only). -/
def compile_property : Nat → String → String → SchemaProperty → String → HM →
    Option (Except Error (String × String × String × HM))
  | 0, _, _, _, _, _ => none
  | fuel + 1, struct_name, raw_name, property, schema_path, compiled_schemas =>
    match compile_property_ty_with (compile_object_with (compile_property fuel))
        raw_name property schema_path compiled_schemas with
    | none => none
    | some (.error e) => some (.error e)
    | some (.ok (ty, cs)) =>
      some (.ok (field_attributes property.minLength property.maxLength,
        toSnake raw_name, ty, cs))

/-- `compile_object` of the source, at a given fuel. -/
def compile_object (fuel : Nat) : String → List (String × SchemaProperty) →
    List String → String → HM → Option (Except Error HM) :=
  compile_object_with (compile_property fuel)

/-- The field loop of `compile_object` at a given fuel. -/
def compile_fields (fuel : Nat) : String → List (String × SchemaProperty) →
    List String → String → HM → Option (Except Error (List String × HM)) :=
  compile_fields_with (compile_property fuel)

/-- One schema file as seen by `generate_schema`: reading the file may fail
(`SchemaNotFound`), deserializing may fail (`InvalidSchema`), or it parses to
a `Schema`. -/
inductive SchemaInput where
  | unreadable (schema_path : String)
  | invalid (schema_path : String)
  | parsed (schema_path : String) (schema : Schema)

/-- `generate_schema`: dispatch on the read/parse outcome, then on the
top-level `type` tag; only `Object` is supported; an absent `required` list
becomes the empty list. -/
def generate_schema (fuel : Nat) (input : SchemaInput) (compiled_schemas : HM) :
    Option (Except Error HM) :=
  match input with
  | .unreadable p => some (.error (.SchemaNotFound p))
  | .invalid p => some (.error (.InvalidSchema p))
  | .parsed p s =>
    match s.ty with
    | .Object => compile_object fuel s.title s.properties (s.required.getD []) p compiled_schemas
    | ty => some (.error (.SchemaTypeNotSupported ty p))

/-- The schema loop of `generate_schemas_for_version`: `generate_schema` on
each discovered file in order, aborting at the first error (the `?`
operator). -/
def compile_all (fuel : Nat) : List SchemaInput → HM → Option (Except Error HM)
  | [], compiled_schemas => some (.ok compiled_schemas)
  | input :: rest, compiled_schemas =>
    match generate_schema fuel input compiled_schemas with
    | none => none
    | some (.error e) => some (.error e)
    | some (.ok cs) => compile_all fuel rest cs

/-- The bytes written to the output file: the serde import header followed by
the definition texts joined with blank lines, in the order the map yields
them. -/
def emit (values : List String) : String :=
  "use serde::\x7bSerialize, Deserialize\x7d;\n\n" ++ String.intercalate "\n\n" values

/-- `generate_schemas_for_version` after discovery: compile every schema, and
only if every one succeeded, open and write the output file.  `values_order`
models the unspecified iteration order of `compiled_schemas.values()`: a run
of the source program yields the values in some order this function stands
for.  `.ok content` means the output file was written with `content`;
`.error e` means the run aborted before the output file was opened. -/
def generate_schemas_for_version (fuel : Nat) (inputs : List SchemaInput)
    (values_order : List String → List String) : Option (Except Error String) :=
  match compile_all fuel inputs [] with
  | none => none
  | some (.error e) => some (.error e)
  | some (.ok cs) => some (.ok (emit (values_order (HM.values cs))))

/-- One entry of the version directory as seen by the discovery loop:
its path, its extension (`Path::extension`), and the outcome of
`entry.file_type()` (`none` models the `io::Error` case). -/
structure DirEntry where
  path : String
  extension : Option String
  file_type : Option Bool
deriving DecidableEq

/-- Outcome of schema-file discovery: a panic (the `expect` on
`entry.file_type()`), a returned error, or the list of schema paths. -/
inductive DiscoveryResult where
  | panicked (msg : String)
  | failed (e : Error)
  | ok (paths : List String)

/-- The `filter_map` over `read_dir` entries: an `Err` entry (modelled as
`none`) is silently skipped by the catch-all arm; on an `Ok` entry the guard
calls `entry.file_type().expect("Cannot read file type")`, which panics when
the file type cannot be read; files with extension `json` are kept. -/
def discover_entries : List (Option DirEntry) → DiscoveryResult
  | [] => .ok []
  | none :: rest => discover_entries rest
  | some entry :: rest =>
    match entry.file_type with
    | none => .panicked "Cannot read file type"
    | some is_file =>
      if is_file ∧ entry.extension = some "json" then
        match discover_entries rest with
        | .ok paths => .ok (entry.path :: paths)
        | other => other
      else discover_entries rest

/-- The discovery step of `generate_schemas_for_version`: `fs::read_dir` on
the version directory either fails (`SchemasNotFound`, returned as an error)
or yields a listing which is filtered entry by entry. -/
def read_schemas_dir (listing : Option (List (Option DirEntry))) : DiscoveryResult :=
  match listing with
  | none => .failed .SchemasNotFound
  | some entries => discover_entries entries

/-- Whether a listing entry would make the discovery guard panic: it is an
`Ok` entry whose `file_type()` call fails. -/
def entry_file_type_unreadable : Option DirEntry → Bool
  | some entry => entry.file_type.isNone
  | none => false

/-- The field rendering of `compile_object`, as a function of the compiled
property triple and the required flag (spec-side abbreviation of the two
format strings in the source). -/
def field_text (attrs name ty : String) (is_required : Bool) : String :=
  if is_required then attrs ++ "pub r#" ++ name ++ ": " ++ ty ++ ","
  else attrs ++ "pub r#" ++ name ++ ": Option<" ++ ty ++ ">,"

/-- A schema node with only its `type` tag set. -/
def bareProp (ty : SchemaPropertyType) : SchemaProperty :=
  .mk ty none none none none none none none none none none none none none none none none

/-- A `String` node carrying length bounds. -/
def lenProp (min_length max_length : Option Nat) : SchemaProperty :=
  .mk .String none min_length max_length none none none none none none none none none
    none none none none

/-- A node of the given type carrying length bounds. -/
def lenPropOf (ty : SchemaPropertyType) (min_length max_length : Option Nat) :
    SchemaProperty :=
  .mk ty none min_length max_length none none none none none none none none none
    none none none none

/-- An `Object` node with nested properties and required list. -/
def objProp (properties : List (String × SchemaProperty))
    (required : Option (List String)) : SchemaProperty :=
  .mk .Object none none none none none none none none none none (some properties)
    none none none required none

/-- A `String` node with an `enum` list. -/
def enumProp (variants : List String) : SchemaProperty :=
  .mk .String (some variants) none none none none none none none none none none
    none none none none none

/- Concrete schemas and expected compiler outputs used by the theorems. -/

/-- A schema titled `Alpha` with a nested object property `status` of shape
`a: boolean`. -/
def schemaAlpha : Schema :=
  ⟨"alpha-id", "Alpha", .Object, [("status", objProp [("a", bareProp .Boolean)] none)], none⟩

/-- A schema titled `Beta` whose nested object property is also named
`status` but has the different shape `b: boolean`. -/
def schemaBeta : Schema :=
  ⟨"beta-id", "Beta", .Object, [("status", objProp [("b", bareProp .Boolean)] none)], none⟩

/-- The nested struct compiled from `Alpha`'s `status` property. -/
def statusAlphaText : String :=
  "#[derive(Debug, Clone, Serialize, Deserialize, validator::Validate)]\npub struct Status \x7b\n    pub r#a: Option<bool>,\n\x7d"

/-- The nested struct compiled from `Beta`'s `status` property. -/
def statusBetaText : String :=
  "#[derive(Debug, Clone, Serialize, Deserialize, validator::Validate)]\npub struct Status \x7b\n    pub r#b: Option<bool>,\n\x7d"

def alphaText : String :=
  "#[derive(Debug, Clone, Serialize, Deserialize, validator::Validate)]\npub struct Alpha \x7b\n    pub r#status: Option<Status>,\n\x7d"

def betaText : String :=
  "#[derive(Debug, Clone, Serialize, Deserialize, validator::Validate)]\npub struct Beta \x7b\n    pub r#status: Option<Status>,\n\x7d"

/-- A one-boolean-property schema titled `Gamma`. -/
def schemaGamma : Schema :=
  ⟨"gamma-id", "Gamma", .Object, [("g", bareProp .Boolean)], none⟩

/-- A one-boolean-property schema titled `Delta`. -/
def schemaDelta : Schema :=
  ⟨"delta-id", "Delta", .Object, [("d", bareProp .Boolean)], none⟩

def gammaText : String :=
  "#[derive(Debug, Clone, Serialize, Deserialize, validator::Validate)]\npub struct Gamma \x7b\n    pub r#g: Option<bool>,\n\x7d"

def deltaText : String :=
  "#[derive(Debug, Clone, Serialize, Deserialize, validator::Validate)]\npub struct Delta \x7b\n    pub r#d: Option<bool>,\n\x7d"

/-- The output file content when the map yields `Gamma` before `Delta`. -/
def c3OutInOrder : String :=
  "use serde::\x7bSerialize, Deserialize\x7d;\n\n" ++ gammaText ++ "\n\n" ++ deltaText

/-- The output file content when the map yields `Delta` before `Gamma`. -/
def c3OutReversed : String :=
  "use serde::\x7bSerialize, Deserialize\x7d;\n\n" ++ deltaText ++ "\n\n" ++ gammaText

/-- `Epsilon` compiled with its two properties iterated as `a` then `b`. -/
def epsilonAB : String :=
  "#[derive(Debug, Clone, Serialize, Deserialize, validator::Validate)]\npub struct Epsilon \x7b\n    pub r#a: Option<bool>,\npub r#b: Option<bool>,\n\x7d"

/-- `Epsilon` compiled with its two properties iterated as `b` then `a`. -/
def epsilonBA : String :=
  "#[derive(Debug, Clone, Serialize, Deserialize, validator::Validate)]\npub struct Epsilon \x7b\n    pub r#b: Option<bool>,\npub r#a: Option<bool>,\n\x7d"

/-- A schema titled `Heartbeat` with a required integer `interval`. -/
def heartbeat1 : Schema :=
  ⟨"hb1", "Heartbeat", .Object, [("interval", bareProp .Integer)], some ["interval"]⟩

/-- A second schema with the same title `Heartbeat` but a different shape. -/
def heartbeat2 : Schema :=
  ⟨"hb2", "Heartbeat", .Object, [("currentTime", bareProp .String)], none⟩

def heartbeatText1 : String :=
  "#[derive(Debug, Clone, Serialize, Deserialize, validator::Validate)]\npub struct Heartbeat \x7b\n    pub r#interval: i32,\n\x7d"

def heartbeatText2 : String :=
  "#[derive(Debug, Clone, Serialize, Deserialize, validator::Validate)]\npub struct Heartbeat \x7b\n    pub r#current_time: Option<String>,\n\x7d"

/-- A directory entry whose `file_type()` call succeeds. -/
def goodEntry : DirEntry := ⟨"/schemas/v1.6/a.json", some "json", some true⟩

/-- A directory entry whose `file_type()` call fails with an `io::Error`. -/
def brokenEntry : DirEntry := ⟨"/schemas/v1.6/b.json", some "json", none⟩

/- Helper lemmas shared by the claim theorems. -/

theorem HM.lookup_map_replace (k v : String) :
    ∀ m : HM, m.any (fun kv => kv.1 = k) = true →
      HM.lookup (m.map (fun kv => if kv.1 = k then (k, v) else kv)) k = some v := by
  intro m
  induction m with
  | nil => intro h; simp at h
  | cons hd tl ih =>
    obtain ⟨k₁, v₁⟩ := hd
    intro h
    rw [List.map_cons]
    by_cases hk : k₁ = k
    · rw [show (if (k₁, v₁).1 = k then (k, v) else (k₁, v₁)) = (k, v) from if_pos hk]
      simp [HM.lookup]
    · rw [show (if (k₁, v₁).1 = k then (k, v) else (k₁, v₁)) = (k₁, v₁) from if_neg hk]
      rw [show HM.lookup ((k₁, v₁) :: List.map (fun kv => if kv.1 = k then (k, v) else kv) tl) k
            = HM.lookup (List.map (fun kv => if kv.1 = k then (k, v) else kv) tl) k by
          simp only [HM.lookup]; rw [if_neg hk]]
      refine ih ?_
      simpa [List.any_cons, hk] using h

theorem HM.lookup_append_new (k v : String) :
    ∀ m : HM, m.any (fun kv => kv.1 = k) = false →
      HM.lookup (m ++ [(k, v)]) k = some v := by
  intro m
  induction m with
  | nil => simp [HM.lookup]
  | cons hd tl ih =>
    obtain ⟨k₁, v₁⟩ := hd
    intro h
    simp only [List.any_cons, Bool.or_eq_false_iff, decide_eq_false_iff_not] at h
    simp only [List.cons_append, HM.lookup, h.1, if_false]
    exact ih h.2

/-- `HashMap::insert` makes the inserted value the one found under the key,
whether or not a (possibly different) definition was already registered
there. -/
theorem HM.lookup_insert (m : HM) (k v : String) :
    HM.lookup (HM.insert m k v) k = some v := by
  unfold HM.insert
  by_cases h : m.any (fun kv => kv.1 = k) = true
  · simpa [h] using HM.lookup_map_replace k v m h
  · simp only [Bool.not_eq_true] at h
    simpa [h] using HM.lookup_append_new k v m h

/-- C1: the claim says a nested struct/enum synthesized from property `p` of
owner `O` is named by a combination of `O` and `p`, so same-named nested
properties of two owners cannot collide.  The code refutes this: the result
of `compile_property` is invariant under the owner name (the `struct_name`
parameter is never read, every nested name is `raw_name.to_camel()` alone),
and compiling the sibling schemas `Alpha` and `Beta`, whose `status`
properties have different shapes, registers both nested structs under the
single key `Status` — the second registration silently replacing the
first. -/
theorem c1_nested_name_ignores_owner :
    (∀ (fuel : Nat) (owner₁ owner₂ raw_name : String) (property : SchemaProperty)
        (schema_path : String) (cs : HM),
      compile_property fuel owner₁ raw_name property schema_path cs =
        compile_property fuel owner₂ raw_name property schema_path cs) ∧
    compile_all 10 [.parsed "alpha.json" schemaAlpha] [] =
      some (.ok [("Status", statusAlphaText), ("Alpha", alphaText)]) ∧
    compile_all 10 [.parsed "alpha.json" schemaAlpha, .parsed "beta.json" schemaBeta] [] =
      some (.ok [("Status", statusBetaText), ("Alpha", alphaText), ("Beta", betaText)]) ∧
    statusAlphaText ≠ statusBetaText := by
  refine ⟨fun fuel o₁ o₂ rn p path cs => ?_, rfl, rfl, by decide⟩
  cases fuel <;> rfl

/-- C2: the claim says two distinct enum literals sanitizing to the same
member identifier are detected as a naming conflict and make the compiler
fail.  The code refutes this: `"Not.Supported"` and `"NotSupported"` both
sanitize to `NotSupported`, yet `compile_enum` returns success and emits an
enum with two members carrying the same identifier. -/
theorem c2_enum_collision_silently_emitted :
    sanitized "Not.Supported" = sanitized "NotSupported" ∧
    "Not.Supported" ≠ "NotSupported" ∧
    compile_enum "Status16" ["Not.Supported", "NotSupported"] [] =
      .ok [("Status16",
        "#[derive(Debug, Copy, Clone, Serialize, Deserialize)]\npub enum Status16 \x7b\n    #[serde(rename = \"Not.Supported\")] NotSupported,\n    NotSupported,\n\x7d")] :=
  ⟨rfl, by decide, rfl⟩

/-- C3: the claim says emitted definition order and field order are
deterministic functions of the input, so repeated runs produce byte-identical
output.  The code refutes this: the output is the `HashMap` value iteration
in whatever order the map yields (modelled by `values_order`), and two
legitimate orders of the same compiled definitions — or of the same
properties map — produce different bytes. -/
theorem c3_output_depends_on_iteration_order :
    generate_schemas_for_version 10
        [.parsed "gamma.json" schemaGamma, .parsed "delta.json" schemaDelta]
        (fun l => l) = some (.ok c3OutInOrder) ∧
    generate_schemas_for_version 10
        [.parsed "gamma.json" schemaGamma, .parsed "delta.json" schemaDelta]
        List.reverse = some (.ok c3OutReversed) ∧
    c3OutInOrder ≠ c3OutReversed ∧
    (∀ l : List String, l.reverse.Perm l) ∧
    compile_object 10 "Epsilon" [("a", bareProp .Boolean), ("b", bareProp .Boolean)] []
        "epsilon.json" [] = some (.ok [("Epsilon", epsilonAB)]) ∧
    compile_object 10 "Epsilon" [("b", bareProp .Boolean), ("a", bareProp .Boolean)] []
        "epsilon.json" [] = some (.ok [("Epsilon", epsilonBA)]) ∧
    epsilonAB ≠ epsilonBA ∧
    List.Perm [("a", bareProp .Boolean), ("b", bareProp .Boolean)]
      [("b", bareProp .Boolean), ("a", bareProp .Boolean)] :=
  ⟨rfl, rfl, by decide, fun l => l.reverse_perm, rfl, rfl, by decide,
    List.Perm.swap _ _ _⟩

/-- C4: the claim says that registering a struct under an already-taken name
with a different shape is resolved or rejected rather than silently
overwritten.  The code refutes the second half: `HashMap::insert` makes the
new definition the one found under the name unconditionally, and compiling
two schemas both titled `Heartbeat` with different shapes leaves only the
second definition in the map. -/
theorem c4_same_name_definition_overwritten :
    (∀ (m : HM) (k v : String), HM.lookup (HM.insert m k v) k = some v) ∧
    compile_all 10 [.parsed "hb1.json" heartbeat1] [] =
      some (.ok [("Heartbeat", heartbeatText1)]) ∧
    compile_all 10 [.parsed "hb1.json" heartbeat1, .parsed "hb2.json" heartbeat2] [] =
      some (.ok [("Heartbeat", heartbeatText2)]) ∧
    heartbeatText1 ≠ heartbeatText2 :=
  ⟨HM.lookup_insert, rfl, rfl, by decide⟩

/-- C7: every enum member whose sanitized identifier differs from the raw
literal carries a `#[serde(rename = "...")]` wire mapping back to the
original literal, and a member whose sanitized identifier equals the literal
carries none; `"Accepted"` survives unchanged while the punctuation-bearing
`"Occupied.NonCharging"` is stripped to `OccupiedNonCharging` with an
explicit rename. -/
theorem c7_enum_wire_value_mapping :
    (∀ variant : String,
      enum_variant variant =
        if sanitized variant ≠ variant then
          "#[serde(rename = \"" ++ variant ++ "\")] " ++ sanitized variant ++ ","
        else sanitized variant ++ ",") ∧
    sanitized "Accepted" = "Accepted" ∧
    sanitized "Occupied.NonCharging" = "OccupiedNonCharging" ∧
    compile_enum "Status" ["Accepted", "Rejected"] [] =
      .ok [("Status",
        "#[derive(Debug, Copy, Clone, Serialize, Deserialize)]\npub enum Status \x7b\n    Accepted,\n    Rejected,\n\x7d")] ∧
    compile_enum "ChargePointStatus" ["Occupied.NonCharging"] [] =
      .ok [("ChargePointStatus",
        "#[derive(Debug, Copy, Clone, Serialize, Deserialize)]\npub enum ChargePointStatus \x7b\n    #[serde(rename = \"Occupied.NonCharging\")] OccupiedNonCharging,\n\x7d")] := by
  refine ⟨fun variant => ?_, rfl, rfl, rfl, rfl⟩
  by_cases h : sanitized variant ≠ variant
  · simp only [enum_variant, if_pos h, String.append_assoc]
  · simp only [enum_variant, if_neg h]

/-- C8: whenever compiling any schema of the run fails, the whole run returns
that error and the output file is never opened; the output content exists
exactly when every schema compiled. -/
theorem c8_error_aborts_without_output :
    (∀ (fuel : Nat) (inputs : List SchemaInput)
        (values_order : List String → List String) (e : Error),
      compile_all fuel inputs [] = some (.error e) →
      generate_schemas_for_version fuel inputs values_order = some (.error e)) ∧
    (∀ (fuel : Nat) (inputs : List SchemaInput)
        (values_order : List String → List String) (out : String),
      generate_schemas_for_version fuel inputs values_order = some (.ok out) →
      ∃ cs, compile_all fuel inputs [] = some (.ok cs) ∧
        out = emit (values_order (HM.values cs))) := by
  constructor
  · intro fuel inputs values_order e h
    unfold generate_schemas_for_version
    rw [h]
  · intro fuel inputs values_order out h
    unfold generate_schemas_for_version at h
    cases hc : compile_all fuel inputs [] with
    | none => rw [hc] at h; exact absurd h (by simp)
    | some r =>
      cases r with
      | error e => rw [hc] at h; exact absurd h (by simp)
      | ok cs =>
        rw [hc] at h
        simp only [Option.some.injEq, Except.ok.injEq] at h
        exact ⟨cs, rfl, h.symm⟩

/-- Witness for C8 at a concrete failing run: one invalid schema file aborts
the run with `InvalidSchema` and no output content is produced. -/
theorem c8_error_aborts_witness :
    compile_all 5 [SchemaInput.invalid "bad.json"] [] =
      some (.error (.InvalidSchema "bad.json")) ∧
    generate_schemas_for_version 5 [SchemaInput.invalid "bad.json"] (fun l => l) =
      some (.error (.InvalidSchema "bad.json")) :=
  ⟨rfl, c8_error_aborts_without_output.1 5 [SchemaInput.invalid "bad.json"]
    (fun l => l) (.InvalidSchema "bad.json") rfl⟩

/-- The entry filter never produces the recoverable `failed` outcome: entry
problems either panic or are skipped. -/
theorem discover_entries_ne_failed (entries : List (Option DirEntry)) :
    ∀ e : Error, discover_entries entries ≠ .failed e := by
  induction entries with
  | nil => intro e; simp [discover_entries]
  | cons hd tl ih =>
    intro e
    cases hd with
    | none => simpa [discover_entries] using ih e
    | some d =>
      cases hft : d.file_type with
      | none => simp [discover_entries, hft]
      | some is_file =>
        simp only [discover_entries, hft]
        by_cases hcond : is_file = true ∧ d.extension = some "json"
        · rw [if_pos hcond]
          cases hd' : discover_entries tl with
          | ok paths => simp
          | panicked msg => simp
          | failed e' => exact absurd hd' (ih e')
        · rw [if_neg hcond]; exact ih e

/-- If the scan reaches an entry whose `file_type()` call fails — no earlier
entry panics — the whole discovery panics with the `expect` message. -/
theorem discover_entries_panic_reached :
    ∀ (pre rest : List (Option DirEntry)) (entry : DirEntry),
      entry.file_type = none →
      (∀ x ∈ pre, entry_file_type_unreadable x = false) →
      discover_entries (pre ++ some entry :: rest) =
        .panicked "Cannot read file type" := by
  intro pre
  induction pre with
  | nil =>
    intro rest entry hft _
    simp [discover_entries, hft]
  | cons hd tl ih =>
    intro rest entry hft hclean
    have htl : ∀ x ∈ tl, entry_file_type_unreadable x = false :=
      fun x hx => hclean x (List.mem_cons_of_mem _ hx)
    cases hd with
    | none =>
      simpa [discover_entries] using ih rest entry hft htl
    | some d =>
      have hhd := hclean (some d) (List.mem_cons_self _ _)
      cases hift : d.file_type with
      | none => simp [entry_file_type_unreadable, hift] at hhd
      | some is_file =>
        simp only [List.cons_append, discover_entries, hift, List.append_eq]
        by_cases hcond : is_file = true ∧ d.extension = some "json"
        · rw [if_pos hcond, ih rest entry hft htl]
        · rw [if_neg hcond]; exact ih rest entry hft htl

/-- C10: a directory entry whose `file_type()` call fails makes discovery
panic with the `expect` message `Cannot read file type` (provided the scan
reaches it, i.e. no earlier entry panics first), while the recoverable
`SchemasNotFound` error arises exactly when the version directory itself
cannot be listed — never from an entry. -/
theorem c10_filetype_error_panics :
    read_schemas_dir none = .failed .SchemasNotFound ∧
    (∀ (entries : List (Option DirEntry)) (e : Error),
      read_schemas_dir (some entries) ≠ .failed e) ∧
    (∀ (pre rest : List (Option DirEntry)) (entry : DirEntry),
      entry.file_type = none →
      (∀ x ∈ pre, entry_file_type_unreadable x = false) →
      read_schemas_dir (some (pre ++ some entry :: rest)) =
        .panicked "Cannot read file type") :=
  ⟨rfl, fun entries e => discover_entries_ne_failed entries e,
    fun pre rest entry hft hclean =>
      discover_entries_panic_reached pre rest entry hft hclean⟩

/-- Witness for C10: a listing with one healthy entry followed by one whose
file type cannot be read panics instead of returning `SchemasNotFound`. -/
theorem c10_filetype_error_panics_witness :
    brokenEntry.file_type = none ∧
    (∀ x ∈ [some goodEntry], entry_file_type_unreadable x = false) ∧
    read_schemas_dir (some [some goodEntry, some brokenEntry]) =
      .panicked "Cannot read file type" :=
  ⟨rfl, by decide,
    c10_filetype_error_panics.2.2 [some goodEntry] [] brokenEntry rfl (by decide)⟩

/-- The attributes and field-name components of a successful
`compile_property` result are the length attribute and the snake-cased raw
name, whatever the type dispatch did. -/
theorem compile_property_ok_parts (fuel : Nat) (struct_name raw_name : String)
    (property : SchemaProperty) (schema_path : String) (cs : HM)
    (attrs name ty : String) (cs' : HM)
    (h : compile_property fuel struct_name raw_name property schema_path cs =
      some (.ok (attrs, name, ty, cs'))) :
    attrs = field_attributes property.minLength property.maxLength ∧
    name = toSnake raw_name := by
  cases fuel with
  | zero => simp [compile_property] at h
  | succ fuel =>
    simp only [compile_property] at h
    cases hct : compile_property_ty_with (compile_object_with (compile_property fuel))
        raw_name property schema_path cs with
    | none => rw [hct] at h; simp at h
    | some r =>
      cases r with
      | error e => rw [hct] at h; simp at h
      | ok p =>
        obtain ⟨t, cs₀⟩ := p
        rw [hct] at h
        simp only [Option.some.injEq, Except.ok.injEq, Prod.mk.injEq] at h
        exact ⟨h.1.symm, h.2.1.symm⟩

theorem string_append_space_ne_empty (s : String) : s ++ " " ≠ "" := by
  intro hs
  have h₁ := congrArg String.length hs
  rw [String.length_append] at h₁
  have h₂ : (" " : String).length = 1 := rfl
  have h₃ : ("" : String).length = 0 := rfl
  rw [h₂, h₃] at h₁
  omega

/-- When at least one length bound is present, the collected attribute text
is non-empty. -/
theorem field_attributes_ne_empty (min_length max_length : Option Nat)
    (h : min_length.isSome ∨ max_length.isSome) :
    field_attributes min_length max_length ≠ "" := by
  cases min_length with
  | none =>
    cases max_length with
    | none => simp at h
    | some max => exact string_append_space_ne_empty _
  | some min =>
    cases max_length with
    | none => exact string_append_space_ne_empty _
    | some max => exact string_append_space_ne_empty _

theorem string_lit_close2_space : ("))]" : String) ++ " " = "))] " := rfl

theorem string_lit_close1_space : (")]" : String) ++ " " = ")] " := rfl

/-- C6: a successful `compile_property` carries exactly one of three length
attributes — implicit `min = 1` with the given `max` when only `maxLength` is
present, both given bounds when both are present, the given `min` when only
`minLength` is present — and no length attribute when neither bound is
present.  (The only-min string reproduces the source byte for byte, with its
unbalanced closing parenthesis.) -/
theorem c6_length_attribute_three_cases (fuel : Nat) (struct_name raw_name : String)
    (property : SchemaProperty) (schema_path : String) (cs : HM)
    (attrs name ty : String) (cs' : HM)
    (h : compile_property fuel struct_name raw_name property schema_path cs =
      some (.ok (attrs, name, ty, cs'))) :
    attrs = match property.minLength, property.maxLength with
      | none, some max => "#[validate(length(min = 1, max = " ++ toString max ++ "))] "
      | some min, some max =>
        "#[validate(length(min = " ++ toString min ++ ", max = " ++ toString max ++ "))] "
      | some min, none => "#[validate(length(min = " ++ toString min ++ ")] "
      | none, none => "" := by
  rw [(compile_property_ok_parts fuel struct_name raw_name property schema_path cs
    attrs name ty cs' h).1]
  cases property.minLength <;> cases property.maxLength <;>
    simp [field_attributes, length_attribute, String.append_assoc,
      string_lit_close2_space, string_lit_close1_space]

/-- Witness for C6 at the both-bounds case: a string property with
`minLength = 1` and `maxLength = 20`. -/
theorem c6_length_attribute_witness :
    compile_property 3 "BootNotification" "chargePointVendor"
        (lenProp (some 1) (some 20)) "boot.json" [] =
      some (.ok ("#[validate(length(min = 1, max = 20))] ", "charge_point_vendor",
        "String", [])) ∧
    "#[validate(length(min = 1, max = 20))] " =
      match (lenProp (some 1) (some 20)).minLength, (lenProp (some 1) (some 20)).maxLength with
      | none, some max => "#[validate(length(min = 1, max = " ++ toString max ++ "))] "
      | some min, some max =>
        "#[validate(length(min = " ++ toString min ++ ", max = " ++ toString max ++ "))] "
      | some min, none => "#[validate(length(min = " ++ toString min ++ ")] "
      | none, none => "" :=
  ⟨rfl, c6_length_attribute_three_cases 3 "BootNotification" "chargePointVendor"
    (lenProp (some 1) (some 20)) "boot.json" [] _ _ _ _ rfl⟩

/-- C9: the length attribute is computed before the type dispatch, so every
successfully compiled property carrying a `minLength` or `maxLength` bound —
whatever its declared type — receives the (non-empty) length-validation
attribute. -/
theorem c9_length_attribute_any_type (fuel : Nat) (struct_name raw_name : String)
    (property : SchemaProperty) (schema_path : String) (cs : HM)
    (attrs name ty : String) (cs' : HM)
    (h : compile_property fuel struct_name raw_name property schema_path cs =
      some (.ok (attrs, name, ty, cs')))
    (hb : property.minLength.isSome ∨ property.maxLength.isSome) :
    attrs = field_attributes property.minLength property.maxLength ∧ attrs ≠ "" := by
  have hp := compile_property_ok_parts fuel struct_name raw_name property schema_path
    cs attrs name ty cs' h
  refine ⟨hp.1, ?_⟩
  rw [hp.1]
  exact field_attributes_ne_empty _ _ hb

/-- Witness for C9: a Boolean property (not a String) with `minLength = 5`
still receives the length attribute. -/
theorem c9_length_attribute_witness :
    compile_property 3 "Owner" "flag" (lenPropOf .Boolean (some 5) none) "f.json" [] =
      some (.ok ("#[validate(length(min = 5)] ", "flag", "bool", [])) ∧
    ((lenPropOf .Boolean (some 5) none).minLength.isSome ∨
      (lenPropOf .Boolean (some 5) none).maxLength.isSome) ∧
    ("#[validate(length(min = 5)] " =
      field_attributes (lenPropOf .Boolean (some 5) none).minLength
        (lenPropOf .Boolean (some 5) none).maxLength ∧
     ("#[validate(length(min = 5)] " : String) ≠ "") :=
  ⟨rfl, Or.inl rfl,
    c9_length_attribute_any_type 3 "Owner" "flag" (lenPropOf .Boolean (some 5) none)
      "f.json" [] _ _ _ _ rfl (Or.inl rfl)⟩

/-- A successful field loop produces exactly one field per property. -/
theorem compile_fields_with_ok_length
    (cp : String → String → SchemaProperty → String → HM →
      Option (Except Error (String × String × String × HM)))
    (struct_name schema_path : String) :
    ∀ (properties : List (String × SchemaProperty)) (required : List String)
      (cs : HM) (fields : List String) (cs' : HM),
      compile_fields_with cp struct_name properties required schema_path cs =
        some (.ok (fields, cs')) →
      fields.length = properties.length := by
  intro properties
  induction properties with
  | nil =>
    intro required cs fields cs' h
    simp only [compile_fields_with, Option.some.injEq, Except.ok.injEq,
      Prod.mk.injEq] at h
    rw [← h.1]
    rfl
  | cons hd tl ih =>
    obtain ⟨raw_name, property⟩ := hd
    intro required cs fields cs' h
    simp only [compile_fields_with] at h
    cases hcp : cp struct_name raw_name property schema_path cs with
    | none => rw [hcp] at h; simp at h
    | some r =>
      cases r with
      | error e => rw [hcp] at h; simp at h
      | ok q =>
        obtain ⟨attrs, name, ty, cs₁⟩ := q
        rw [hcp] at h
        simp only at h
        cases hrest : compile_fields_with cp struct_name tl required schema_path cs₁ with
        | none => rw [hrest] at h; simp at h
        | some r₂ =>
          cases r₂ with
          | error e => rw [hrest] at h; simp at h
          | ok q₂ =>
            obtain ⟨fs, cs₂⟩ := q₂
            rw [hrest] at h
            simp only [Option.some.injEq, Except.ok.injEq, Prod.mk.injEq] at h
            rw [← h.1]
            simp [ih required cs₁ fs cs₂ hrest]

/-- The field at index `i` of a successful field loop is the compiled
property at index `i`, rendered bare when its raw name is required and
`Option`-wrapped otherwise. -/
theorem compile_fields_with_get
    (cp : String → String → SchemaProperty → String → HM →
      Option (Except Error (String × String × String × HM)))
    (struct_name schema_path : String) :
    ∀ (properties : List (String × SchemaProperty)) (required : List String)
      (cs : HM) (fields : List String) (cs' : HM) (i : Nat)
      (raw_name : String) (property : SchemaProperty),
      compile_fields_with cp struct_name properties required schema_path cs =
        some (.ok (fields, cs')) →
      properties.get? i = some (raw_name, property) →
      ∃ attrs name ty cs₀ cs₁,
        cp struct_name raw_name property schema_path cs₀ =
          some (.ok (attrs, name, ty, cs₁)) ∧
        fields.get? i = some (field_text attrs name ty (required.contains raw_name)) := by
  intro properties
  induction properties with
  | nil =>
    intro required cs fields cs' i raw_name property _ hp
    simp at hp
  | cons hd tl ih =>
    obtain ⟨rn₀, p₀⟩ := hd
    intro required cs fields cs' i raw_name property h hp
    simp only [compile_fields_with] at h
    cases hcp : cp struct_name rn₀ p₀ schema_path cs with
    | none => rw [hcp] at h; simp at h
    | some r =>
      cases r with
      | error e => rw [hcp] at h; simp at h
      | ok q =>
        obtain ⟨attrs, name, ty, cs₁⟩ := q
        rw [hcp] at h
        simp only at h
        cases hrest : compile_fields_with cp struct_name tl required schema_path cs₁ with
        | none => rw [hrest] at h; simp at h
        | some r₂ =>
          cases r₂ with
          | error e => rw [hrest] at h; simp at h
          | ok q₂ =>
            obtain ⟨fs, cs₂⟩ := q₂
            rw [hrest] at h
            simp only [Option.some.injEq, Except.ok.injEq, Prod.mk.injEq] at h
            cases i with
            | zero =>
              simp only [List.get?] at hp
              injection hp with hp
              injection hp with hp₁ hp₂
              subst hp₁; subst hp₂
              refine ⟨attrs, name, ty, cs, cs₁, hcp, ?_⟩
              rw [← h.1]
              rfl
            | succ i =>
              simp only [List.get?] at hp
              obtain ⟨a, n, t, c₀, c₁, hcp', hf⟩ :=
                ih required cs₁ fs cs₂ i raw_name property hrest hp
              refine ⟨a, n, t, c₀, c₁, hcp', ?_⟩
              rw [← h.1]
              simpa using hf

/-- C5: a compiled field is rendered with its bare type reference exactly
when its raw property name appears in the schema's `required` list, and with
its type wrapped in `Option<...>` otherwise; an absent `required` list is
treated as the empty list. -/
theorem c5_required_optional_fidelity :
    (∀ (fuel : Nat) (struct_name : String)
        (properties : List (String × SchemaProperty)) (required : List String)
        (schema_path : String) (cs : HM) (fields : List String) (cs' : HM)
        (i : Nat) (raw_name : String) (property : SchemaProperty),
      compile_fields fuel struct_name properties required schema_path cs =
        some (.ok (fields, cs')) →
      properties.get? i = some (raw_name, property) →
      fields.length = properties.length ∧
      ∃ attrs name ty cs₀ cs₁,
        compile_property fuel struct_name raw_name property schema_path cs₀ =
          some (.ok (attrs, name, ty, cs₁)) ∧
        fields.get? i = some (field_text attrs name ty (required.contains raw_name))) ∧
    (∀ (fuel : Nat) (schema_path id title : String)
        (properties : List (String × SchemaProperty)) (cs : HM),
      generate_schema fuel (.parsed schema_path ⟨id, title, .Object, properties, none⟩) cs =
        compile_object fuel title properties [] schema_path cs) := by
  constructor
  · intro fuel struct_name properties required schema_path cs fields cs' i raw_name property h hp
    exact ⟨compile_fields_with_ok_length (compile_property fuel) struct_name schema_path
        properties required cs fields cs' h,
      compile_fields_with_get (compile_property fuel) struct_name schema_path
        properties required cs fields cs' i raw_name property h hp⟩
  · intro fuel schema_path id title properties cs
    rfl

/-- Witness for C5: two boolean properties with `required = ["a"]` compile to
a bare `a` field and an `Option`-wrapped `b` field. -/
theorem c5_required_optional_witness :
    compile_fields 5 "BootNotification"
        [("a", bareProp .Boolean), ("b", bareProp .Boolean)] ["a"] "boot.json" [] =
      some (.ok (["pub r#a: bool,", "pub r#b: Option<bool>,"], [])) ∧
    [("a", bareProp .Boolean), ("b", bareProp .Boolean)].get? 1 =
      some ("b", bareProp .Boolean) ∧
    ((["pub r#a: bool,", "pub r#b: Option<bool>,"] : List String).length =
        [("a", bareProp .Boolean), ("b", bareProp .Boolean)].length ∧
      ∃ attrs name ty cs₀ cs₁,
        compile_property 5 "BootNotification" "b" (bareProp .Boolean) "boot.json" cs₀ =
          some (.ok (attrs, name, ty, cs₁)) ∧
        (["pub r#a: bool,", "pub r#b: Option<bool>,"] : List String).get? 1 =
          some (field_text attrs name ty (["a"].contains "b"))) :=
  ⟨rfl, rfl,
    c5_required_optional_fidelity.1 5 "BootNotification"
      [("a", bareProp .Boolean), ("b", bareProp .Boolean)] ["a"] "boot.json" []
      ["pub r#a: bool,", "pub r#b: Option<bool>,"] [] 1 "b" (bareProp .Boolean) rfl rfl⟩

end Ocppx
